import Mathlib

/-!
Shallow embedding of the core of the `webull-rs` client library:
the auth-token lifecycle (`src/auth.rs`), the request dispatcher
(`src/endpoints/base.rs` with the envelope of `src/models/response.rs`),
the sliding-window rate limiter (`src/utils/rate_limit.rs`), the TTL
response cache (`src/utils/cache.rs`) and the WebSocket streaming
supervisor (`src/streaming/client.rs`).

Conventions of the embedding:
* wall-clock instants are `Nat` (for `std::time::Instant`, which is
  monotone and compared by `duration_since`) or `Int` (for
  `chrono::DateTime<Utc>`); durations are in seconds;
* fallible Rust code returning `WebullResult<T>` becomes
  `Except WebullError T`;
* the HTTP / WebSocket transports are oracles passed in as arguments
  (a `Transport` value or an `Option HttpResponse`), and `serde_json`
  deserialization is an oracle `String → Option _`;
* side effects that the claims talk about (network calls, sleeps,
  rate-limiter waits) are returned as explicit traces.
-/

namespace Webull

/-- The error enum of `src/error.rs` (`WebullError`).  The payloads of
`NetworkError` and `SerializationError` are opaque library types in the
source and are dropped here. -/
inductive WebullError where
  | AuthenticationError (msg : String)
  | ApiError (code : String) (message : String)
  | RateLimitExceeded
  | NetworkError
  | InvalidRequest (msg : String)
  | SerializationError
  | MfaRequired
  | Unauthorized
  | Unknown (msg : String)
deriving DecidableEq, Repr

/-- `Credentials` of `src/auth.rs`. -/
structure Credentials where
  username : String
  password : String
deriving DecidableEq, Repr

/-- `AccessToken` of `src/auth.rs`; `expires_at` is a UTC timestamp
modelled as `Int`. -/
structure AccessToken where
  token : String
  expires_at : Int
  refresh_token : Option String
deriving DecidableEq, Repr

/-- Outcome of one HTTP exchange as consumed by `src/auth.rs`:
either a transport error (`reqwest` failure) or a status plus body text
(the source substitutes "Unknown error" when the body cannot be read;
that substitution is folded into the oracle's `body`). -/
inductive Transport where
  | netError
  | response (status : Nat) (body : String)
deriving DecidableEq, Repr

/-- The `LoginResponse`/`MfaResponse`/`RefreshResponse` shape private to
`src/auth.rs` (all three structs have identical fields; `token_type` is
never read). -/
structure LoginResponse where
  access_token : String
  refresh_token : String
  expires_in : Int
deriving DecidableEq, Repr

/-- Status-code classification shared by the non-2xx branches of
`authenticate`, `multi_factor_auth` and `refresh_token` in
`src/auth.rs`: 401 ↦ `Unauthorized`, 429 ↦ `RateLimitExceeded`,
anything else ↦ `ApiError {code: status, message: body}`. -/
def classifyAuthFailure (status : Nat) (body : String) : WebullError :=
  if status = 401 then .Unauthorized
  else if status = 429 then .RateLimitExceeded
  else .ApiError (toString status) body

/-- `reqwest::StatusCode::is_success`: the 2xx range. -/
def statusIsSuccess (status : Nat) : Bool :=
  decide (200 ≤ status ∧ status ≤ 299)

/-- Shared tail of the three login-style exchanges of `src/auth.rs`:
send the POST (recorded in the network-call trace), classify a non-2xx
status, parse the body into the login-response shape, build the
`AccessToken` with `expires_at = now + expires_in`, and store it.
Returns (result, stored token afterwards, list of URLs POSTed). -/
def loginExchange (url : String) (stored : Option AccessToken) (now : Int)
    (transport : Transport) (parse : String → Option LoginResponse) :
    Except WebullError AccessToken × Option AccessToken × List String :=
  match transport with
  | .netError => (.error .NetworkError, stored, [url])
  | .response status body =>
    if statusIsSuccess status then
      match parse body with
      | none => (.error .SerializationError, stored, [url])
      | some lr =>
        let token : AccessToken :=
          ⟨lr.access_token, now + lr.expires_in, some lr.refresh_token⟩
        (.ok token, some token, [url])
    else
      (.error (classifyAuthFailure status body), stored, [url])

/-- `AuthManager::authenticate` (src/auth.rs:99-207).  The manager's
mutable fields are passed and returned explicitly: the stored
credentials and the token-store slot.  The very first statement of the
source sets `self.credentials`; `encrypt_password` (base64) and
`generate_signature` (HMAC-SHA256, any key length is accepted) never
fail, so the next fallible step is the network exchange.
Returns (result, credentials afterwards, stored token afterwards,
POSTed URLs). -/
def AuthManager.authenticate (username password : String)
    (stored : Option AccessToken) (now : Int)
    (transport : Transport) (parse : String → Option LoginResponse) :
    Except WebullError AccessToken × Option Credentials ×
      Option AccessToken × List String :=
  let creds : Credentials := ⟨username, password⟩
  let e := loginExchange "/api/passport/login/v5/account" stored now
    transport parse
  (e.1, some creds, e.2.1, e.2.2)

/-- `AuthManager::multi_factor_auth` (src/auth.rs:210-305): requires
previously stored credentials, else `InvalidRequest`; otherwise runs the
same exchange against the verification endpoint. -/
def AuthManager.multi_factor_auth (credentials : Option Credentials)
    (_mfa_code : String) (stored : Option AccessToken) (now : Int)
    (transport : Transport) (parse : String → Option LoginResponse) :
    Except WebullError AccessToken × Option AccessToken × List String :=
  match credentials with
  | none =>
      (.error (.InvalidRequest "No credentials available for MFA"), stored, [])
  | some _creds =>
      loginExchange "/api/passport/verificationCode/verify" stored now
        transport parse

/-- `AuthManager::refresh_token` (src/auth.rs:308-407): requires a stored
token carrying a refresh token, else `InvalidRequest`; otherwise runs
the exchange against the refresh endpoint. -/
def AuthManager.refresh_token (stored : Option AccessToken) (now : Int)
    (transport : Transport) (parse : String → Option LoginResponse) :
    Except WebullError AccessToken × Option AccessToken × List String :=
  match stored with
  | none =>
      (.error (.InvalidRequest "No token available for refresh"), stored, [])
  | some current =>
    match current.refresh_token with
    | none =>
        (.error (.InvalidRequest "No refresh token available"), stored, [])
    | some _rtok =>
        loginExchange "/api/passport/refreshToken" stored now transport parse

/-- `AuthManager::get_token` (src/auth.rs:410-421): read the token store;
a missing token or one with `expires_at <= now` is `Unauthorized`.  The
second component is the list of URLs POSTed (always empty: the body of
`get_token` contains no network call). -/
def AuthManager.get_token (stored : Option AccessToken) (now : Int) :
    Except WebullError AccessToken × List String :=
  match stored with
  | none => (.error .Unauthorized, [])
  | some token =>
    if token.expires_at ≤ now then (.error .Unauthorized, [])
    else (.ok token, [])

/-- The envelope `ApiResponse<T>` of `src/models/response.rs`. -/
structure ApiResponse (T : Type) where
  success : Bool
  data : Option T
  code : Option String
  message : Option String
deriving DecidableEq, Repr

/-- `ApiResponse::is_success` (src/models/response.rs:44-46). -/
def ApiResponse.is_success {T : Type} (r : ApiResponse T) : Bool :=
  r.success

/-- `ApiResponse::get_data` (src/models/response.rs:49-51). -/
def ApiResponse.get_data {T : Type} (r : ApiResponse T) : Option T :=
  r.data

/-- An HTTP response as consumed by `BaseEndpoint::send_request`.
`retry_after` models the `retry-after` header chain
`headers().get(..).and_then(to_str).and_then(parse::<u64>)`:
`none` = header absent, `some none` = present but not a parsable
integer, `some (some n)` = parses to `n`. -/
structure HttpResponse where
  status : Nat
  retry_after : Option (Option Nat)
  body : String
deriving DecidableEq, Repr

/-- Observable side effects of one dispatcher run, in order. -/
inductive Effect where
  | tokenGet
  | rlWait (path : String)
  | httpSend
  | sleep (secs : Nat)
  | cacheSet (path : String)
deriving DecidableEq, Repr

/-- Status/envelope classification of `BaseEndpoint::send_request`
(src/endpoints/base.rs:74-124): 429 ↦ sleep the `retry-after` seconds
(default 1) and fail `RateLimitExceeded`; 401 ↦ `Unauthorized`; other
non-2xx ↦ `ApiError {code: status, message: body}`; 2xx ↦ parse the
envelope, `success = false` ↦ `ApiError` from its code/message
(defaults "unknown" / "Unknown error"), missing data ↦ the "no_data"
`ApiError`, else the payload.  The second component records sleeps. -/
def BaseEndpoint.classifyResponse {T : Type} (resp : HttpResponse)
    (parse : String → Option (ApiResponse T)) :
    Except WebullError T × List Effect :=
  if resp.status = 429 then
    let retry_after := (resp.retry_after.getD none).getD 1
    (.error .RateLimitExceeded, [.sleep retry_after])
  else if resp.status = 401 then
    (.error .Unauthorized, [])
  else if ¬ statusIsSuccess resp.status then
    (.error (.ApiError (toString resp.status) resp.body), [])
  else
    match parse resp.body with
    | none => (.error .SerializationError, [])
    | some ar =>
      if ¬ ar.is_success then
        (.error (.ApiError (ar.code.getD "unknown")
          (ar.message.getD "Unknown error")), [])
      else
        match ar.get_data with
        | none =>
            (.error (.ApiError "no_data" "Response did not contain data"),
             [])
        | some d => (.ok d, [])

/-- `BaseEndpoint::send_request` (src/endpoints/base.rs:54-124):
wait on the rate limiter for the path, send, then classify the
response.  `net = none` is a transport failure. -/
def BaseEndpoint.send_request {T : Type} (path : String)
    (net : Option HttpResponse) (parse : String → Option (ApiResponse T)) :
    Except WebullError T × List Effect :=
  match net with
  | none => (.error .NetworkError, [.rlWait path, .httpSend])
  | some resp =>
    let c := BaseEndpoint.classifyResponse resp parse
    (c.1, .rlWait path :: .httpSend :: c.2)

/-- `BaseEndpoint::get` (src/endpoints/base.rs:150-169) past the cache
lookup, i.e. the cache-miss flow: `authenticate_request`
(src/endpoints/base.rs:139-147) first calls `AuthManager::get_token`
and propagates its failure; only a successful `send_request` afterwards
reaches the rate limiter, the wire, and the cache write. -/
def BaseEndpoint.getMiss {T : Type} (stored : Option AccessToken)
    (now : Int) (path : String) (net : Option HttpResponse)
    (parse : String → Option (ApiResponse T)) :
    Except WebullError T × List Effect :=
  match (AuthManager.get_token stored now).1 with
  | .error e => (.error e, [.tokenGet])
  | .ok _token =>
    let s := BaseEndpoint.send_request path net parse
    match s.1 with
    | .ok v => (.ok v, .tokenGet :: s.2 ++ [.cacheSet path])
    | .error e => (.error e, .tokenGet :: s.2)

/-- `CacheKey` of `src/utils/cache.rs`. -/
structure CacheKey where
  method : String
  url : String
  query : Option String
  body : Option String
deriving DecidableEq, Repr

/-- `CacheEntry<T>` of `src/utils/cache.rs`; `created_at` is an
`Instant` (Nat) and `ttl` a duration in the same units. -/
structure CacheEntry (T : Type) where
  value : T
  created_at : Nat
  ttl : Nat
deriving DecidableEq, Repr

/-- `CacheEntry::is_expired` (src/utils/cache.rs:30-32):
`created_at.elapsed() > ttl`.  `created_at ≤ now` holds for every
reachable entry, so `Nat` subtraction agrees with `Instant` elapsed
time. -/
def CacheEntry.is_expired {T : Type} (e : CacheEntry T) (now : Nat) : Bool :=
  decide (e.ttl < now - e.created_at)

/-- `ResponseCache<T>` of `src/utils/cache.rs`.  The `HashMap` is
modelled as a key-unique association list; the map is unordered in the
source, so the list order carries no meaning. -/
structure ResponseCache (T : Type) where
  entries : List (CacheKey × CacheEntry T)
  default_ttl : Nat
  max_entries : Nat

/-- `HashMap::insert`: replace the entry of an existing key, otherwise
add the pair. -/
def insertEntry {T : Type} (m : List (CacheKey × CacheEntry T))
    (key : CacheKey) (entry : CacheEntry T) :
    List (CacheKey × CacheEntry T) :=
  if m.any (fun p => p.1 = key) then
    m.map (fun p => if p.1 = key then (key, entry) else p)
  else
    m ++ [(key, entry)]

/-- The expired-entry purge of `ResponseCache::set`
(src/utils/cache.rs:128-137) and of `cleanup`
(src/utils/cache.rs:174-185): drop every expired entry. -/
def purgeExpired {T : Type} (m : List (CacheKey × CacheEntry T))
    (now : Nat) : List (CacheKey × CacheEntry T) :=
  m.filter (fun p => ¬ p.2.is_expired now)

/-- Ordering used by `sorted_entries.sort_by_key(|(_, entry)| entry.created_at)`
in `ResponseCache::set`. -/
def entryOlder {T : Type} (p q : CacheKey × CacheEntry T) : Prop :=
  p.2.created_at ≤ q.2.created_at

instance {T : Type} : DecidableRel (entryOlder (T := T)) :=
  fun p q => inferInstanceAs (Decidable (p.2.created_at ≤ q.2.created_at))

instance {T : Type} : IsTotal (CacheKey × CacheEntry T) entryOlder :=
  ⟨fun p q => Nat.le_total p.2.created_at q.2.created_at⟩

instance {T : Type} : IsTrans (CacheKey × CacheEntry T) entryOlder :=
  ⟨fun _ _ _ h h' => Nat.le_trans h h'⟩

/-- The second eviction phase of `ResponseCache::set`
(src/utils/cache.rs:140-160): sort by creation time and remove the
`len - max_entries + 1` oldest entries.  The source collects those
entries' keys and removes them from the `HashMap`; with unique keys
that leaves exactly the younger remainder, which (the map being
unordered) is represented by `drop` on the sorted list. -/
def evictOldest {T : Type} (m : List (CacheKey × CacheEntry T))
    (max_entries : Nat) : List (CacheKey × CacheEntry T) :=
  (m.insertionSort entryOlder).drop (m.length - max_entries + 1)

/-- `ResponseCache::set` (src/utils/cache.rs:111-165): when at capacity
purge expired entries, then if still at capacity evict the oldest, then
insert the new entry with `ttl.unwrap_or(default_ttl)` created at
`now`. -/
def ResponseCache.set {T : Type} (c : ResponseCache T)
    (method url : String) (query body : Option String)
    (value : T) (ttl : Option Nat) (now : Nat) : ResponseCache T :=
  let key : CacheKey := ⟨method, url, query, body⟩
  let entry : CacheEntry T := ⟨value, now, ttl.getD c.default_ttl⟩
  let m1 :=
    if c.max_entries ≤ c.entries.length then
      if c.max_entries ≤ (purgeExpired c.entries now).length then
        evictOldest (purgeExpired c.entries now) c.max_entries
      else purgeExpired c.entries now
    else c.entries
  { c with entries := insertEntry m1 key entry }

/-- `ResponseCache::get` (src/utils/cache.rs:86-108): a hit whose entry
is expired removes the entry and misses; otherwise the value is
returned and the cache is untouched. -/
def ResponseCache.get {T : Type} (c : ResponseCache T)
    (method url : String) (query body : Option String) (now : Nat) :
    Option T × ResponseCache T :=
  let key : CacheKey := ⟨method, url, query, body⟩
  match c.entries.find? (fun p => p.1 = key) with
  | some p =>
    if p.2.is_expired now then
      (none, { c with entries := c.entries.filter (fun q => ¬ q.1 = key) })
    else
      (some p.2.value, c)
  | none => (none, c)

/-- `ResponseCache::clear` (src/utils/cache.rs:168-171). -/
def ResponseCache.clear {T : Type} (c : ResponseCache T) : ResponseCache T :=
  { c with entries := [] }

/-- The `retain` of `RateLimiter::wait` (src/utils/rate_limit.rs:46):
keep timestamps with `now.duration_since(t) < 60s`.  Timestamps are
`Instant`s modelled as `Nat` seconds; every stored timestamp is ≤ `now`
(the caller pushed it at an earlier instant), so `Nat` subtraction
agrees with `duration_since`. -/
def pruneWindow (now : Nat) (ts : List Nat) : List Nat :=
  ts.filter (fun t => decide (now - t < 60))

/-- Result of one `RateLimiter::wait` call on one key's timestamp list:
the list afterwards, the slept duration, and the admission timestamp
(`none` models the source's panic on `endpoint_timestamps[0]` with an
empty list, reachable only when `requests_per_minute = 0`). -/
structure WaitResult where
  state : List Nat
  slept : Nat
  admitted : Option Nat
deriving DecidableEq, Repr

/-- `RateLimiter::wait` (src/utils/rate_limit.rs:35-70) on a single
key's list, run sequentially (the call holds no lock while sleeping,
but this model executes calls one at a time, as the claims' scenarios
do): prune the window; if the pruned list has reached the ceiling,
sleep `60 - (now - oldest)` and push the post-sleep instant, else push
`now` at once. -/
def RateLimiter.waitKey (requests_per_minute : Nat) (ts : List Nat)
    (now : Nat) : WaitResult :=
  let pruned := pruneWindow now ts
  if requests_per_minute ≤ pruned.length then
    match pruned with
    | [] => ⟨pruned, 0, none⟩
    | oldest :: _ =>
      let d := 60 - (now - oldest)
      ⟨pruned ++ [now + d], d, some (now + d)⟩
  else
    ⟨pruned ++ [now], 0, some now⟩

/-- The limiter's full per-key map (`HashMap<String, Vec<Instant>>`,
`entry(..).or_insert(Vec::new)` makes a missing key the empty list). -/
def RateLimiter.wait (requests_per_minute : Nat)
    (st : String → List Nat) (key : String) (now : Nat) :
    (String → List Nat) × WaitResult :=
  let r := RateLimiter.waitKey requests_per_minute (st key) now
  (Function.update st key r.state, r)

/-- Run a sequence of `wait` calls, each given as (key, start instant);
the clock returned is the finish instant of the last call. -/
def RateLimiter.runFrom (requests_per_minute : Nat) :
    (String → List Nat) → Nat → List (String × Nat) →
      (String → List Nat) × Nat
  | st, clock, [] => (st, clock)
  | st, _clock, (k, now) :: rest =>
    let r := RateLimiter.waitKey requests_per_minute (st k) now
    RateLimiter.runFrom requests_per_minute
      (Function.update st k r.state) (now + r.slept) rest

/-- Sequential-execution discipline: each call starts no earlier than
the finish (admission) instant of the previous call. -/
def RateLimiter.SeqOK (requests_per_minute : Nat) :
    (String → List Nat) → Nat → List (String × Nat) → Prop
  | _st, _clock, [] => True
  | st, clock, (k, now) :: rest =>
    clock ≤ now ∧
      RateLimiter.SeqOK requests_per_minute
        (Function.update st k
          (RateLimiter.waitKey requests_per_minute (st k) now).state)
        (now + (RateLimiter.waitKey requests_per_minute (st k) now).slept)
        rest

/-- Number of admission timestamps inside the trailing 60-second window
ending at `now`. -/
def countWindow (now : Nat) (ts : List Nat) : Nat :=
  ts.countP (fun t => decide (now - t < 60))

/-- Invariant carried by one key's timestamp list at instant `clock`:
every timestamp is in the past, and the trailing window holds at most
the configured ceiling. -/
def KeyInv (requests_per_minute clock : Nat) (ts : List Nat) : Prop :=
  (∀ t ∈ ts, t ≤ clock) ∧ countWindow clock ts ≤ requests_per_minute

/-- `ConnectionState` of `src/streaming/events.rs`. -/
inductive ConnectionState where
  | Connected
  | Disconnected
  | Reconnecting
  | Failed
deriving DecidableEq, Repr

/-- `EventType` of `src/streaming/events.rs`. -/
inductive EventType where
  | Quote
  | Order
  | Account
  | Trade
  | Connection
  | Subscription
  | Error
  | Heartbeat
  | Unknown
deriving DecidableEq, Repr

/-- The events the supervisor loop of `WebSocketClient::connect`
(src/streaming/client.rs:90-241) emits along its all-attempts-fail
path: the `Error` event with code "WS_CONNECT_ERROR", the
`Connection{Reconnecting}` event, and the terminal
`Connection{Failed}` event. -/
inductive SupEvent where
  | connectError
  | reconnecting
  | connectionFailed
deriving DecidableEq, Repr

/-- The supervisor loop of `WebSocketClient::connect`
(src/streaming/client.rs:90-241) under the claim's forcing: `get_token`
succeeds and every `connect_websocket` fails.  Per iteration the source
reads the attempt counter; if it exceeds `max_reconnect_attempts` it
emits `Connection{Failed}`, sets the state to `Failed` and breaks;
otherwise it increments the counter, fails the handshake (emitting the
error event), sleeps, sets the state to `Reconnecting` and emits the
reconnecting event.  `fuel` bounds the unrolling; the fuel-exhausted
base case is unreachable when `fuel ≥ max_reconnect_attempts + 2 -
attempts`.  Returns the emitted events and the final connection
state. -/
def supervisorAllFail (max_reconnect_attempts : Nat) :
    Nat → Nat → List SupEvent × ConnectionState
  | 0, _attempts => ([], .Reconnecting)
  | fuel + 1, attempts =>
    if max_reconnect_attempts < attempts then
      ([.connectionFailed], .Failed)
    else
      let rest := supervisorAllFail max_reconnect_attempts fuel (attempts + 1)
      (.connectError :: .reconnecting :: rest.1, rest.2)

/-- What a `subscribe`/`unsubscribe` call sends where: its result, the
events pushed onto the consumer event channel (`self.event_sender`),
and the frames written to the WebSocket (the source holds no handle to
the socket in these methods). -/
structure SendOutcome where
  result : Except WebullError Unit
  channelEvents : List EventType
  socketMessages : List String
deriving Repr

/-- `WebSocketClient::subscribe` (src/streaming/client.rs:255-288):
reject when not `Connected`; otherwise serialize the SUBSCRIBE message
into an unused binding and, if an event sender exists, push a
`Heartbeat` event onto the consumer channel (failing with
`InvalidRequest` when the channel is closed; the source interpolates
the send error into the message).  Nothing is ever written to the
socket. -/
def WebSocketClient.subscribe (connection_state : ConnectionState)
    (has_event_sender channel_open : Bool) : SendOutcome :=
  if connection_state ≠ .Connected then
    ⟨.error (.InvalidRequest "Not connected to WebSocket server"), [], []⟩
  else if has_event_sender then
    if channel_open then
      ⟨.ok (), [.Heartbeat], []⟩
    else
      ⟨.error (.InvalidRequest "Failed to send message: channel closed"),
       [], []⟩
  else
    ⟨.ok (), [], []⟩

/-- `WebSocketClient::unsubscribe` (src/streaming/client.rs:291-324):
identical control flow to `subscribe` with the UNSUBSCRIBE action. -/
def WebSocketClient.unsubscribe (connection_state : ConnectionState)
    (has_event_sender channel_open : Bool) : SendOutcome :=
  if connection_state ≠ .Connected then
    ⟨.error (.InvalidRequest "Not connected to WebSocket server"), [], []⟩
  else if has_event_sender then
    if channel_open then
      ⟨.ok (), [.Heartbeat], []⟩
    else
      ⟨.error (.InvalidRequest "Failed to send message: channel closed"),
       [], []⟩
  else
    ⟨.ok (), [], []⟩

/-! ## Theorems -/

/-- Helper: the login-style exchange of `src/auth.rs` can fail with
`Unauthorized`, `RateLimitExceeded`, `ApiError`, `NetworkError` or
`SerializationError`, but never with `InvalidRequest`. -/
theorem loginExchange_ne_invalidRequest (url : String)
    (stored : Option AccessToken) (now : Int) (transport : Transport)
    (parse : String → Option LoginResponse) (msg : String) :
    (loginExchange url stored now transport parse).1 ≠
      .error (.InvalidRequest msg) := by
  cases transport with
  | netError => simp [loginExchange]
  | response status body =>
    simp only [loginExchange]
    split
    · cases h : parse body <;> simp [h]
    · simp only [classifyAuthFailure]
      split
      · simp
      · split <;> simp

/-- Claim C1: `AuthManager::get_token` returns the stored token exactly
when one is present and unexpired; a missing token, and any token with
`expires_at ≤ now`, yield `Unauthorized`; no network call is made on
any path. -/
theorem get_token_gate (stored : Option AccessToken) (now : Int) :
    (AuthManager.get_token stored now).2 = [] ∧
    (stored = none →
      (AuthManager.get_token stored now).1 = .error .Unauthorized) ∧
    (∀ t, stored = some t → t.expires_at ≤ now →
      (AuthManager.get_token stored now).1 = .error .Unauthorized) ∧
    (∀ t, stored = some t → now < t.expires_at →
      (AuthManager.get_token stored now).1 = .ok t) := by
  refine ⟨?_, ?_, ?_, ?_⟩
  · cases stored with
    | none => rfl
    | some t =>
      simp only [AuthManager.get_token]
      split <;> rfl
  · rintro rfl
    rfl
  · rintro t rfl h
    simp [AuthManager.get_token, if_pos h]
  · rintro t rfl h
    simp [AuthManager.get_token, if_neg (not_le.mpr h)]

/-- Witness for C1 at concrete tokens: a missing token and an expired
token are rejected, an unexpired one is returned. -/
theorem get_token_gate_witness :
    (AuthManager.get_token none 0).1 = .error .Unauthorized ∧
    (AuthManager.get_token (some ⟨"tok", 100, none⟩) 100).1 =
      .error .Unauthorized ∧
    (AuthManager.get_token (some ⟨"tok", 100, none⟩) 99).1 =
      .ok ⟨"tok", 100, none⟩ :=
  ⟨(get_token_gate none 0).2.1 rfl,
   (get_token_gate (some ⟨"tok", 100, none⟩) 100).2.2.1 _ rfl (by norm_num),
   (get_token_gate (some ⟨"tok", 100, none⟩) 99).2.2.2 _ rfl (by norm_num)⟩

/-- Claim C9: `AuthManager::refresh_token` with no stored token, or a
stored token without a refresh token, fails with `InvalidRequest`,
leaves the stored token unchanged and POSTs nothing — for every
possible transport behaviour, showing the network is never touched. -/
theorem refresh_token_precondition (stored : Option AccessToken)
    (now : Int) (transport : Transport)
    (parse : String → Option LoginResponse) :
    (stored = none →
      AuthManager.refresh_token stored now transport parse =
        (.error (.InvalidRequest "No token available for refresh"),
         stored, [])) ∧
    (∀ t, stored = some t → t.refresh_token = none →
      AuthManager.refresh_token stored now transport parse =
        (.error (.InvalidRequest "No refresh token available"),
         stored, [])) := by
  constructor
  · rintro rfl
    rfl
  · rintro t rfl h
    simp [AuthManager.refresh_token, h]

/-- Witness for C9 at concrete managers: no stored token, and a stored
token with `refresh_token = none`, each with a live transport that
would answer 200. -/
theorem refresh_token_precondition_witness :
    AuthManager.refresh_token none 0 (.response 200 "ok")
        (fun _ => some ⟨"a", "r", 3600⟩) =
      (.error (.InvalidRequest "No token available for refresh"),
       none, []) ∧
    AuthManager.refresh_token (some ⟨"tok", 100, none⟩) 0
        (.response 200 "ok") (fun _ => some ⟨"a", "r", 3600⟩) =
      (.error (.InvalidRequest "No refresh token available"),
       some ⟨"tok", 100, none⟩, []) :=
  ⟨(refresh_token_precondition none 0 (.response 200 "ok")
      (fun _ => some ⟨"a", "r", 3600⟩)).1 rfl,
   (refresh_token_precondition (some ⟨"tok", 100, none⟩) 0
      (.response 200 "ok") (fun _ => some ⟨"a", "r", 3600⟩)).2 _ rfl rfl⟩

/-- Claim C10: `AuthManager::authenticate` records the credentials
before the remote exchange, so whatever the exchange does (network
error, 401, 429, other status, parse failure or success) the manager
retains them, and a subsequent `multi_factor_auth` never hits the
no-credentials `InvalidRequest` precondition error. -/
theorem authenticate_records_credentials (username password : String)
    (stored : Option AccessToken) (now : Int) (transport : Transport)
    (parse : String → Option LoginResponse) :
    (AuthManager.authenticate username password stored now transport
        parse).2.1 = some ⟨username, password⟩ ∧
    (∀ code stored' now' transport' parse',
      (AuthManager.multi_factor_auth
          (AuthManager.authenticate username password stored now transport
            parse).2.1
          code stored' now' transport' parse').1 ≠
        .error (.InvalidRequest "No credentials available for MFA")) := by
  constructor
  · rfl
  · intro code stored' now' transport' parse'
    exact loginExchange_ne_invalidRequest _ _ _ _ _ _

/-- Witness for C10 at a concrete failing authentication: the network
errors out, yet the credentials are retained and MFA passes its
precondition. -/
theorem authenticate_records_credentials_witness :
    (AuthManager.authenticate "user" "pw" none 0 .netError
        (fun _ => none)).2.1 = some ⟨"user", "pw"⟩ ∧
    (AuthManager.multi_factor_auth
        (AuthManager.authenticate "user" "pw" none 0 .netError
          (fun _ => none)).2.1
        "123456" none 0 .netError (fun _ => none)).1 ≠
      .error (.InvalidRequest "No credentials available for MFA") :=
  ⟨(authenticate_records_credentials "user" "pw" none 0 .netError
      (fun _ => none)).1,
   (authenticate_records_credentials "user" "pw" none 0 .netError
      (fun _ => none)).2 "123456" none 0 .netError (fun _ => none)⟩

/-- Claim C2: the status/envelope mapping of
`BaseEndpoint::send_request`: 401 ↦ `Unauthorized`; 429 ↦ sleep the
`retry-after` seconds (default 1 when absent or unparsable) then
`RateLimitExceeded`; other non-2xx ↦ `ApiError{code: status, message:
body}`; a 2xx envelope with `success = false` ↦ `ApiError` with the
envelope's code and message; `success = true` without data ↦ the
"no_data" `ApiError`; otherwise the payload is returned. -/
theorem send_request_status_mapping {T : Type} (path : String)
    (net : Option HttpResponse) (parse : String → Option (ApiResponse T)) :
    (∀ r, net = some r → r.status = 429 →
      BaseEndpoint.send_request path net parse =
        (.error .RateLimitExceeded,
         [.rlWait path, .httpSend,
          .sleep ((r.retry_after.getD none).getD 1)])) ∧
    (∀ r, net = some r → r.status = 401 →
      BaseEndpoint.send_request path net parse =
        (.error .Unauthorized, [.rlWait path, .httpSend])) ∧
    (∀ r, net = some r → r.status ≠ 429 → r.status ≠ 401 →
      statusIsSuccess r.status = false →
      BaseEndpoint.send_request path net parse =
        (.error (.ApiError (toString r.status) r.body),
         [.rlWait path, .httpSend])) ∧
    (∀ r ar, net = some r → statusIsSuccess r.status = true →
      parse r.body = some ar → ar.success = false →
      BaseEndpoint.send_request path net parse =
        (.error (.ApiError (ar.code.getD "unknown")
          (ar.message.getD "Unknown error")),
         [.rlWait path, .httpSend])) ∧
    (∀ r ar, net = some r → statusIsSuccess r.status = true →
      parse r.body = some ar → ar.success = true → ar.data = none →
      BaseEndpoint.send_request path net parse =
        (.error (.ApiError "no_data" "Response did not contain data"),
         [.rlWait path, .httpSend])) ∧
    (∀ r ar d, net = some r → statusIsSuccess r.status = true →
      parse r.body = some ar → ar.success = true → ar.data = some d →
      BaseEndpoint.send_request path net parse =
        (.ok d, [.rlWait path, .httpSend])) := by
  have hne : ∀ s : Nat, statusIsSuccess s = true → s ≠ 429 ∧ s ≠ 401 := by
    intro s hs
    simp only [statusIsSuccess, decide_eq_true_eq] at hs
    omega
  refine ⟨?_, ?_, ?_, ?_, ?_, ?_⟩
  · rintro r rfl h
    simp [BaseEndpoint.send_request, BaseEndpoint.classifyResponse, h]
  · rintro r rfl h
    simp [BaseEndpoint.send_request, BaseEndpoint.classifyResponse, h]
  · rintro r rfl h429 h401 hs
    simp [BaseEndpoint.send_request, BaseEndpoint.classifyResponse,
      h429, h401, hs]
  · rintro r ar rfl hs hparse hsucc
    obtain ⟨h429, h401⟩ := hne r.status hs
    simp [BaseEndpoint.send_request, BaseEndpoint.classifyResponse,
      h429, h401, hs, hparse, ApiResponse.is_success, hsucc]
  · rintro r ar rfl hs hparse hsucc hdata
    obtain ⟨h429, h401⟩ := hne r.status hs
    simp [BaseEndpoint.send_request, BaseEndpoint.classifyResponse,
      h429, h401, hs, hparse, ApiResponse.is_success, hsucc,
      ApiResponse.get_data, hdata]
  · rintro r ar d rfl hs hparse hsucc hdata
    obtain ⟨h429, h401⟩ := hne r.status hs
    simp [BaseEndpoint.send_request, BaseEndpoint.classifyResponse,
      h429, h401, hs, hparse, ApiResponse.is_success, hsucc,
      ApiResponse.get_data, hdata]

/-- Witness for C2 at concrete responses: a 401; a 429 with
`retry-after: 3`; a 500 with body "boom"; a 200 envelope
`{success: false, code: "X1", message: "bad"}`; a 200 success envelope
without data; and a 200 success envelope with payload 42. -/
theorem send_request_status_mapping_witness :
    BaseEndpoint.send_request (T := Nat) "/p" (some ⟨401, none, ""⟩)
        (fun _ => none) =
      (.error .Unauthorized, [.rlWait "/p", .httpSend]) ∧
    BaseEndpoint.send_request (T := Nat) "/p" (some ⟨429, some (some 3), ""⟩)
        (fun _ => none) =
      (.error .RateLimitExceeded, [.rlWait "/p", .httpSend, .sleep 3]) ∧
    BaseEndpoint.send_request (T := Nat) "/p" (some ⟨500, none, "boom"⟩)
        (fun _ => none) =
      (.error (.ApiError "500" "boom"), [.rlWait "/p", .httpSend]) ∧
    BaseEndpoint.send_request (T := Nat) "/p" (some ⟨200, none, "b"⟩)
        (fun _ => some ⟨false, none, some "X1", some "bad"⟩) =
      (.error (.ApiError "X1" "bad"), [.rlWait "/p", .httpSend]) ∧
    BaseEndpoint.send_request (T := Nat) "/p" (some ⟨200, none, "b"⟩)
        (fun _ => some ⟨true, none, none, none⟩) =
      (.error (.ApiError "no_data" "Response did not contain data"),
       [.rlWait "/p", .httpSend]) ∧
    BaseEndpoint.send_request (T := Nat) "/p" (some ⟨200, none, "b"⟩)
        (fun _ => some ⟨true, some 42, none, none⟩) =
      (.ok 42, [.rlWait "/p", .httpSend]) :=
  ⟨(send_request_status_mapping "/p" (some ⟨401, none, ""⟩)
      (fun _ => none)).2.1 _ rfl rfl,
   (send_request_status_mapping "/p" (some ⟨429, some (some 3), ""⟩)
      (fun _ => none)).1 _ rfl rfl,
   (send_request_status_mapping "/p" (some ⟨500, none, "boom"⟩)
      (fun _ => none)).2.2.1 _ rfl (by decide) (by decide) (by decide),
   (send_request_status_mapping "/p" (some ⟨200, none, "b"⟩)
      (fun _ => some ⟨false, none, some "X1", some "bad"⟩)).2.2.2.1 _ _
      rfl (by decide) rfl rfl,
   (send_request_status_mapping "/p" (some ⟨200, none, "b"⟩)
      (fun _ => some ⟨true, none, none, none⟩)).2.2.2.2.1 _ _
      rfl (by decide) rfl rfl rfl,
   (send_request_status_mapping "/p" (some ⟨200, none, "b"⟩)
      (fun _ => some ⟨true, some 42, none, none⟩)).2.2.2.2.2 _ _ _
      rfl (by decide) rfl rfl rfl⟩

/-- Counterexample to claim C7 as stated: on a cache miss with an
expired stored token, `BaseEndpoint::get` fails `Unauthorized` from the
token gate while the rate limiter was never consulted — the effect
trace is exactly `[tokenGet]`, with no `rlWait` — so `Unauthorized`
does not occur "after admission has been granted". -/
theorem dispatcher_order_counterexample :
    (BaseEndpoint.getMiss (T := Nat) (some ⟨"tok", 0, none⟩) 5 "/a" none
        (fun _ => none)).1 = .error .Unauthorized ∧
    (BaseEndpoint.getMiss (T := Nat) (some ⟨"tok", 0, none⟩) 5 "/a" none
        (fun _ => none)).2 = [.tokenGet] := by
  constructor <;> rfl

/-- Claim C7 amended: on a cache miss the dispatcher obtains the bearer
token via `AuthManager::get_token` BEFORE waiting for rate-limiter
admission; a token-gate failure (e.g. `Unauthorized`) therefore occurs
with no `rlWait` in the trace, and only when `get_token` succeeds does
`rlWait path` follow `tokenGet` (then `httpSend`). -/
theorem dispatcher_token_before_admission {T : Type}
    (stored : Option AccessToken) (now : Int) (path : String)
    (net : Option HttpResponse) (parse : String → Option (ApiResponse T)) :
    (∀ e, (AuthManager.get_token stored now).1 = .error e →
      BaseEndpoint.getMiss stored now path net parse =
        (.error e, [.tokenGet])) ∧
    (∀ t, (AuthManager.get_token stored now).1 = .ok t →
      (BaseEndpoint.getMiss stored now path net parse).2.take 3 =
        [.tokenGet, .rlWait path, .httpSend]) := by
  have htail : ∃ tail, (BaseEndpoint.send_request path net parse).2 =
      .rlWait path :: .httpSend :: tail := by
    cases net with
    | none => exact ⟨[], rfl⟩
    | some resp => exact ⟨(BaseEndpoint.classifyResponse resp parse).2, rfl⟩
  constructor
  · intro e he
    simp [BaseEndpoint.getMiss, he]
  · intro t ht
    obtain ⟨tail, htl⟩ := htail
    simp only [BaseEndpoint.getMiss, ht]
    cases hs : (BaseEndpoint.send_request path net parse).1 with
    | ok v => simp [hs, htl]
    | error e => simp [hs, htl]

/-- Witness for the amended C7: a failing token gate produces
`[tokenGet]` alone; a valid token leads to `tokenGet` then
`rlWait`/`httpSend`. -/
theorem dispatcher_token_before_admission_witness :
    BaseEndpoint.getMiss (T := Nat) (some ⟨"tok", 0, none⟩) 5 "/a" none
        (fun _ => none) = (.error .Unauthorized, [.tokenGet]) ∧
    (BaseEndpoint.getMiss (T := Nat) (some ⟨"tok", 9, none⟩) 5 "/a" none
        (fun _ => none)).2.take 3 =
      [.tokenGet, .rlWait "/a", .httpSend] :=
  ⟨(dispatcher_token_before_admission (some ⟨"tok", 0, none⟩) 5 "/a" none
      (fun _ => none)).1 .Unauthorized rfl,
   (dispatcher_token_before_admission (some ⟨"tok", 9, none⟩) 5 "/a" none
      (fun _ => none)).2 ⟨"tok", 9, none⟩ rfl⟩

/-- Claim C8 evaluated on the code: `subscribe`/`unsubscribe` do fail
with `InvalidRequest` in every non-`Connected` state, but in the
`Connected` state the code never writes the serialized control message
to the WebSocket (no socket send exists on any path); instead it pushes
a `Heartbeat` event onto the consumer event channel. -/
theorem subscribe_sends_no_socket_message
    (connection_state : ConnectionState)
    (has_event_sender channel_open : Bool) :
    (connection_state ≠ .Connected →
      (WebSocketClient.subscribe connection_state has_event_sender
          channel_open).result =
        .error (.InvalidRequest "Not connected to WebSocket server") ∧
      (WebSocketClient.unsubscribe connection_state has_event_sender
          channel_open).result =
        .error (.InvalidRequest "Not connected to WebSocket server")) ∧
    (WebSocketClient.subscribe connection_state has_event_sender
        channel_open).socketMessages = [] ∧
    (WebSocketClient.unsubscribe connection_state has_event_sender
        channel_open).socketMessages = [] ∧
    WebSocketClient.subscribe .Connected true true =
      ⟨.ok (), [.Heartbeat], []⟩ ∧
    WebSocketClient.unsubscribe .Connected true true =
      ⟨.ok (), [.Heartbeat], []⟩ := by
  refine ⟨?_, ?_, ?_, rfl, rfl⟩
  · intro h
    constructor <;>
      simp [WebSocketClient.subscribe, WebSocketClient.unsubscribe, h]
  · unfold WebSocketClient.subscribe
    split
    · rfl
    · split
      · split <;> rfl
      · rfl
  · unfold WebSocketClient.unsubscribe
    split
    · rfl
    · split
      · split <;> rfl
      · rfl

/-- Witness for C8 at concrete states: a disconnected `subscribe` is
rejected with `InvalidRequest`, and a connected one sends only the
channel heartbeat, never a socket frame. -/
theorem subscribe_sends_no_socket_message_witness :
    (WebSocketClient.subscribe .Disconnected true true).result =
      .error (.InvalidRequest "Not connected to WebSocket server") ∧
    WebSocketClient.subscribe .Connected true true =
      ⟨.ok (), [.Heartbeat], []⟩ :=
  ⟨((subscribe_sends_no_socket_message .Disconnected true true).1
      (by simp)).1,
   (subscribe_sends_no_socket_message .Disconnected true true).2.2.2.1⟩

/-- Counterexample to claim C6 as stated: with
`max_reconnect_attempts = 5` and every handshake failing, the
supervisor performs 6 connection attempts (the loop's guard is
`attempts > max`, and the counter is incremented from 0 before each
attempt), not 5 — each failed attempt emits one `WS_CONNECT_ERROR`
event, and the run with ample fuel contains 6 of them. -/
theorem reconnect_ceiling_counterexample :
    (supervisorAllFail 5 10 0).1.count .connectError = 6 ∧
    (supervisorAllFail 5 10 0).1.count .connectError ≠ 5 ∧
    (supervisorAllFail 5 10 0).2 = .Failed := by
  refine ⟨by decide, by decide, by decide⟩

/-- Claim C6 amended: with every connection attempt failing, the
supervisor performs exactly `max_reconnect_attempts + 1` attempts
(6 when the maximum is 5), then emits the terminal Connection-Failed
event as its last event, sets the connection state to `Failed`, and
stops. -/
theorem reconnect_ceiling (m : Nat) :
    ∀ (fuel attempts : Nat), attempts ≤ m + 1 → m + 2 - attempts ≤ fuel →
    (supervisorAllFail m fuel attempts).2 = .Failed ∧
    (supervisorAllFail m fuel attempts).1.count .connectError =
      m + 1 - attempts ∧
    (supervisorAllFail m fuel attempts).1.getLast? =
      some .connectionFailed := by
  intro fuel
  induction fuel with
  | zero => intro attempts ha hf; omega
  | succ fuel ih =>
    intro attempts ha hf
    by_cases h : m < attempts
    · have : attempts = m + 1 := by omega
      subst this
      refine ⟨?_, ?_, ?_⟩ <;>
        simp [supervisorAllFail, if_pos h, List.count_cons, List.count_nil]
    · have ha' : attempts + 1 ≤ m + 1 := by omega
      have hf' : m + 2 - (attempts + 1) ≤ fuel := by omega
      obtain ⟨ih1, ih2, ih3⟩ := ih (attempts + 1) ha' hf'
      have hne : (supervisorAllFail m fuel (attempts + 1)).1 ≠ [] := by
        intro hnil
        rw [hnil] at ih3
        simp at ih3
      refine ⟨?_, ?_, ?_⟩
      · simpa [supervisorAllFail, if_neg h] using ih1
      · simp only [supervisorAllFail, if_neg h, List.count_cons]
        simp only [List.count] at ih2 ⊢
        rw [ih2]
        simp
        omega
      · simp only [supervisorAllFail, if_neg h]
        cases hl : (supervisorAllFail m fuel (attempts + 1)).1 with
        | nil => exact absurd hl hne
        | cons x xs =>
          rw [hl] at ih3
          rw [List.getLast?_cons_cons, List.getLast?_cons_cons]
          exact ih3

/-- Witness for the amended C6 at the claim's numbers: the run with
`max = 5` makes 6 attempts, ends `Failed`, and its last event is the
terminal Connection-Failed event. -/
theorem reconnect_ceiling_witness :
    (supervisorAllFail 5 10 0).2 = .Failed ∧
    (supervisorAllFail 5 10 0).1.count .connectError = 6 ∧
    (supervisorAllFail 5 10 0).1.getLast? = some .connectionFailed :=
  ⟨(reconnect_ceiling 5 10 0 (by omega) (by omega)).1,
   (reconnect_ceiling 5 10 0 (by omega) (by omega)).2.1,
   (reconnect_ceiling 5 10 0 (by omega) (by omega)).2.2⟩

/-- Helper: after a `HashMap::insert`, looking the key up finds exactly
the inserted entry. -/
theorem find?_insertEntry {T : Type} (m : List (CacheKey × CacheEntry T))
    (key : CacheKey) (entry : CacheEntry T) :
    (insertEntry m key entry).find? (fun p => p.1 = key) =
      some (key, entry) := by
  induction m with
  | nil => simp [insertEntry]
  | cons q m ih =>
    by_cases hq : q.1 = key
    · simp [insertEntry, hq]
    · by_cases hm : m.any (fun p => p.1 = key) = true
      · have e : insertEntry (q :: m) key entry =
            q :: m.map (fun p => if p.1 = key then (key, entry) else p) := by
          simp [insertEntry, hq, hm]
        have e2 : insertEntry m key entry =
            m.map (fun p => if p.1 = key then (key, entry) else p) := by
          simp [insertEntry, hm]
        rw [e, List.find?_cons_of_neg _ (by simp [hq]), ← e2]
        exact ih
      · have e : insertEntry (q :: m) key entry =
            q :: (m ++ [(key, entry)]) := by
          simp [insertEntry, hq, hm]
        have e2 : insertEntry m key entry = m ++ [(key, entry)] := by
          simp [insertEntry, hm]
        rw [e, List.find?_cons_of_neg _ (by simp [hq]), ← e2]
        exact ih

/-- Helper: after removing a key, looking it up finds nothing. -/
theorem find?_filter_eraseKey {T : Type}
    (m : List (CacheKey × CacheEntry T)) (key : CacheKey) :
    (m.filter (fun q => ¬ q.1 = key)).find? (fun p => p.1 = key) =
      none := by
  rw [List.find?_eq_none]
  intro p hp
  rw [List.mem_filter] at hp
  simpa using hp.2

/-- Helper: a `get` whose key lookup fails returns `none`. -/
theorem get_of_find?_none {T : Type} (c' : ResponseCache T)
    (method url : String) (query body : Option String) (now₃ : Nat)
    (h : c'.entries.find?
      (fun p => p.1 = CacheKey.mk method url query body) = none) :
    (c'.get method url query body now₃).1 = none := by
  simp only [ResponseCache.get, h]

/-- Helper: `HashMap::insert` grows the map by at most one entry. -/
theorem insertEntry_length {T : Type} (m : List (CacheKey × CacheEntry T))
    (key : CacheKey) (entry : CacheEntry T) :
    (insertEntry m key entry).length ≤ m.length + 1 := by
  unfold insertEntry
  split
  · simp
  · simp

/-- Helper: everything in the map after an insert is the inserted pair
or was already present. -/
theorem mem_insertEntry {T : Type} {m : List (CacheKey × CacheEntry T)}
    {key : CacheKey} {entry : CacheEntry T} {p : CacheKey × CacheEntry T}
    (hp : p ∈ insertEntry m key entry) : p = (key, entry) ∨ p ∈ m := by
  unfold insertEntry at hp
  split at hp
  · rw [List.mem_map] at hp
    obtain ⟨q, hq, rfl⟩ := hp
    by_cases h : q.1 = key
    · exact Or.inl (by simp [h])
    · exact Or.inr (by simpa [h] using hq)
  · rw [List.mem_append] at hp
    rcases hp with h | h
    · exact Or.inr h
    · exact Or.inl (by simpa using h)

/-- Helper: an entry under a different key survives an insert. -/
theorem mem_insertEntry_of_ne {T : Type}
    {m : List (CacheKey × CacheEntry T)} {key : CacheKey}
    {entry : CacheEntry T} {p : CacheKey × CacheEntry T}
    (hp : p ∈ m) (hne : ¬ p.1 = key) : p ∈ insertEntry m key entry := by
  unfold insertEntry
  split
  · rw [List.mem_map]
    exact ⟨p, hp, by simp [hne]⟩
  · exact List.mem_append_left _ hp

/-- Helper: the eviction survivors all come from the input map. -/
theorem mem_of_mem_evictOldest {T : Type}
    {m : List (CacheKey × CacheEntry T)} {max_entries : Nat}
    {p : CacheKey × CacheEntry T}
    (hp : p ∈ evictOldest m max_entries) : p ∈ m := by
  unfold evictOldest at hp
  have h := List.mem_of_mem_drop hp
  exact (List.perm_insertionSort _ m).mem_iff.mp h

/-- Helper: the entries `evictOldest` removes (the taken prefix of the
sorted list) are all no younger than every survivor. -/
theorem evictOldest_oldest_first {T : Type}
    (m : List (CacheKey × CacheEntry T)) (max_entries : Nat) :
    ∀ r ∈ (m.insertionSort entryOlder).take (m.length - max_entries + 1),
    ∀ s ∈ evictOldest m max_entries,
      r.2.created_at ≤ s.2.created_at := by
  have hs : List.Sorted entryOlder (m.insertionSort entryOlder) :=
    List.sorted_insertionSort entryOlder m
  have hp : List.Pairwise entryOlder
      ((m.insertionSort entryOlder).take (m.length - max_entries + 1) ++
       (m.insertionSort entryOlder).drop (m.length - max_entries + 1)) := by
    rw [List.take_append_drop]
    exact hs
  intro r hr s hs'
  exact (List.pairwise_append.mp hp).2.2 r hr s hs'

/-- Counterexample to claim C4 as stated: with `max_entries = 0` the
eviction arithmetic (`len - max_entries + 1` removals from `len`
entries, capped at `len`) cannot make room, and the insertion still
happens, so a single `set` leaves the cache with 1 > 0 entries. -/
theorem cache_capacity_counterexample :
    ((ResponseCache.mk (T := Nat) [] 60 0).set "GET" "/a" none none 7 none
        0).entries.length = 1 ∧
    ¬ ((ResponseCache.mk (T := Nat) [] 60 0).set "GET" "/a" none none 7
        none 0).entries.length ≤
      (ResponseCache.mk (T := Nat) [] 60 0).max_entries := by
  constructor <;> decide

/-- Claim C4 amended (for `max_entries ≥ 1`; the bound fails at
`max_entries = 0`): a `set` never leaves the cache with more than
`max_entries` entries; when the insertion finds the cache at capacity
every already-expired entry is purged (all surviving old entries are
unexpired); if the purge alone gets below capacity no unexpired entry
is evicted; and when unexpired entries must be evicted, the removed
ones are the oldest by creation timestamp. -/
theorem cache_capacity_bound {T : Type} (c : ResponseCache T)
    (method url : String) (query body : Option String) (v : T)
    (ttl : Option Nat) (now : Nat) (hmax : 1 ≤ c.max_entries) :
    ((c.set method url query body v ttl now).entries.length ≤
      c.max_entries) ∧
    (c.max_entries ≤ c.entries.length →
      ∀ p ∈ (c.set method url query body v ttl now).entries,
        p.1 = CacheKey.mk method url query body ∨
          p.2.is_expired now = false) ∧
    (c.max_entries ≤ c.entries.length →
      (purgeExpired c.entries now).length < c.max_entries →
      ∀ p ∈ c.entries, p.2.is_expired now = false →
        ¬ p.1 = CacheKey.mk method url query body →
        p ∈ (c.set method url query body v ttl now).entries) ∧
    (∀ m' : List (CacheKey × CacheEntry T),
      ∀ r ∈ (m'.insertionSort entryOlder).take
        (m'.length - c.max_entries + 1),
      ∀ s ∈ evictOldest m' c.max_entries,
        r.2.created_at ≤ s.2.created_at) := by
  refine ⟨?_, ?_, ?_, ?_⟩
  · simp only [ResponseCache.set]
    by_cases hc1 : c.max_entries ≤ c.entries.length
    · rw [if_pos hc1]
      by_cases hc2 : c.max_entries ≤ (purgeExpired c.entries now).length
      · rw [if_pos hc2]
        have h1 := insertEntry_length
          (evictOldest (purgeExpired c.entries now) c.max_entries)
          (CacheKey.mk method url query body)
          ⟨v, now, ttl.getD c.default_ttl⟩
        have h2 : (evictOldest (purgeExpired c.entries now)
            c.max_entries).length = c.max_entries - 1 := by
          unfold evictOldest
          rw [List.length_drop, List.length_insertionSort]
          omega
        omega
      · rw [if_neg hc2]
        have h1 := insertEntry_length (purgeExpired c.entries now)
          (CacheKey.mk method url query body)
          ⟨v, now, ttl.getD c.default_ttl⟩
        omega
    · rw [if_neg hc1]
      have h1 := insertEntry_length c.entries
        (CacheKey.mk method url query body)
        ⟨v, now, ttl.getD c.default_ttl⟩
      omega
  · intro hlen p hp
    simp only [ResponseCache.set, if_pos hlen] at hp
    by_cases hc2 : c.max_entries ≤ (purgeExpired c.entries now).length
    · rw [if_pos hc2] at hp
      rcases mem_insertEntry hp with h | hm
      · exact Or.inl (by rw [h])
      · refine Or.inr ?_
        have h2 := mem_of_mem_evictOldest hm
        rw [purgeExpired, List.mem_filter] at h2
        simpa using h2.2
    · rw [if_neg hc2] at hp
      rcases mem_insertEntry hp with h | hm
      · exact Or.inl (by rw [h])
      · refine Or.inr ?_
        rw [purgeExpired, List.mem_filter] at hm
        simpa using hm.2
  · intro hlen hcp p hp hexp hne
    simp only [ResponseCache.set, if_pos hlen, if_neg (not_le.mpr hcp)]
    exact mem_insertEntry_of_ne
      (by rw [purgeExpired, List.mem_filter]; exact ⟨hp, by simp [hexp]⟩)
      hne
  · intro m'
    exact evictOldest_oldest_first m' c.max_entries

/-- Witness for the amended C4: a cache at capacity 2 holding one
expired and one live entry accepts a third key and stays within
capacity. -/
theorem cache_capacity_bound_witness :
    ((ResponseCache.mk (T := Nat)
        [(⟨"GET", "/a", none, none⟩, ⟨1, 0, 5⟩),
         (⟨"GET", "/b", none, none⟩, ⟨2, 3, 100⟩)] 60 2).set
       "GET" "/c" none none 7 none 10).entries.length ≤ 2 :=
  (cache_capacity_bound
    (ResponseCache.mk
      [(⟨"GET", "/a", none, none⟩, ⟨1, 0, 5⟩),
       (⟨"GET", "/b", none, none⟩, ⟨2, 3, 100⟩)] 60 2)
    "GET" "/c" none none 7 none 10 (by decide)).1

/-- Claim C5: a `set` immediately followed by `get` with the identical
key returns the value; once strictly more than the TTL has elapsed
since creation, `get` misses, the entry is evicted (no entry with that
key remains), and every later `get` with that key also misses. -/
theorem cache_set_get_roundtrip {T : Type} (c : ResponseCache T)
    (method url : String) (query body : Option String) (v : T)
    (ttl : Option Nat) (now now₂ : Nat) :
    ((c.set method url query body v ttl now).get method url query body
        now).1 = some v ∧
    (ttl.getD c.default_ttl < now₂ - now →
      ((c.set method url query body v ttl now).get method url query body
          now₂).1 = none ∧
      (∀ p ∈ ((c.set method url query body v ttl now).get method url
          query body now₂).2.entries,
        ¬ p.1 = CacheKey.mk method url query body) ∧
      (∀ now₃,
        (((c.set method url query body v ttl now).get method url query
            body now₂).2.get method url query body now₃).1 = none)) := by
  constructor
  · simp only [ResponseCache.set, ResponseCache.get]
    rw [find?_insertEntry]
    simp [CacheEntry.is_expired]
  · intro h
    refine ⟨?_, ?_, ?_⟩
    · simp only [ResponseCache.set, ResponseCache.get]
      rw [find?_insertEntry]
      simp [CacheEntry.is_expired, h]
    · intro p hp
      simp only [ResponseCache.set, ResponseCache.get] at hp
      rw [find?_insertEntry] at hp
      simp only [CacheEntry.is_expired] at hp
      rw [if_pos (by simpa using h)] at hp
      simp only [List.mem_filter] at hp
      simpa using hp.2
    · intro now₃
      have hentries : ((c.set method url query body v ttl now).get method
          url query body now₂).2.entries =
          ((c.set method url query body v ttl now).entries).filter
            (fun q => ¬ q.1 = CacheKey.mk method url query body) := by
        simp only [ResponseCache.set, ResponseCache.get]
        rw [find?_insertEntry]
        simp only [CacheEntry.is_expired]
        rw [if_pos (show decide
          (ttl.getD c.default_ttl < now₂ - now) = true by simpa using h)]
      apply get_of_find?_none
      rw [hentries, find?_filter_eraseKey]

/-- Witness for C5 at a concrete cache: store 7 under a key at time 0
with TTL 60, read it back at 0, miss at 61, and stay missing at 100. -/
theorem cache_set_get_roundtrip_witness :
    (((ResponseCache.mk (T := Nat) [] 60 10).set "GET" "/q" none none 7
        none 0).get "GET" "/q" none none 0).1 = some 7 ∧
    (((ResponseCache.mk (T := Nat) [] 60 10).set "GET" "/q" none none 7
        none 0).get "GET" "/q" none none 61).1 = none ∧
    ((((ResponseCache.mk (T := Nat) [] 60 10).set "GET" "/q" none none 7
        none 0).get "GET" "/q" none none 61).2.get "GET" "/q" none none
        100).1 = none :=
  ⟨(cache_set_get_roundtrip (ResponseCache.mk [] 60 10) "GET" "/q" none
      none 7 none 0 61).1,
   ((cache_set_get_roundtrip (ResponseCache.mk [] 60 10) "GET" "/q" none
      none 7 none 0 61).2 (by decide)).1,
   ((cache_set_get_roundtrip (ResponseCache.mk [] 60 10) "GET" "/q" none
      none 7 none 0 61).2 (by decide)).2.2 100⟩

/-- Helper: aging only shrinks the trailing-window count, for lists of
past timestamps. -/
theorem countWindow_mono {ts : List Nat} {clock clock' : Nat}
    (hb : ∀ t ∈ ts, t ≤ clock) (h : clock ≤ clock') :
    countWindow clock' ts ≤ countWindow clock ts := by
  apply List.countP_mono_left
  intro t ht hp
  simp only [decide_eq_true_eq] at hp ⊢
  have := hb t ht
  omega

/-- Helper: the pruned list's length is the trailing-window count. -/
theorem pruneWindow_length_eq (now : Nat) (ts : List Nat) :
    (pruneWindow now ts).length = countWindow now ts := by
  rw [pruneWindow, countWindow, List.countP_eq_length_filter]

/-- Helper: the invariant survives the passage of time. -/
theorem keyInv_age {N clock clock' : Nat} {ts : List Nat}
    (hInv : KeyInv N clock ts) (h : clock ≤ clock') :
    KeyInv N clock' ts :=
  ⟨fun t ht => le_trans (hInv.1 t ht) h,
   le_trans (countWindow_mono hInv.1 h) hInv.2⟩

/-- Helper: one `wait` call on a key preserves the invariant, taken at
the call's finish (admission) instant. -/
theorem keyInv_step {N clock now : Nat} {ts : List Nat}
    (hInv : KeyInv N clock ts) (hle : clock ≤ now) :
    KeyInv N (now + (RateLimiter.waitKey N ts now).slept)
      (RateLimiter.waitKey N ts now).state := by
  obtain ⟨hb, hc⟩ := hInv
  have hbp : ∀ t ∈ pruneWindow now ts, t ≤ now := by
    intro t ht
    exact le_trans (hb t (List.mem_of_mem_filter ht)) hle
  have hlenp : (pruneWindow now ts).length ≤ N := by
    have h1 := pruneWindow_length_eq now ts
    have h2 := countWindow_mono hb hle
    omega
  simp only [RateLimiter.waitKey]
  by_cases hfull : N ≤ (pruneWindow now ts).length
  · cases hp : pruneWindow now ts with
    | nil =>
      rw [if_pos (hp ▸ hfull)]
      exact ⟨by simp, by simp [countWindow]⟩
    | cons oldest rest =>
      have hmemold : oldest ∈ pruneWindow now ts := by
        rw [hp]
        exact List.mem_cons_self _ _
      have hwin : now - oldest < 60 := by
        have h3 := List.of_mem_filter hmemold
        simpa using h3
      have hold_le : oldest ≤ now := hbp oldest hmemold
      have hlen_eq : (pruneWindow now ts).length = N :=
        le_antisymm hlenp hfull
      have hlen2 : (pruneWindow now ts).length = rest.length + 1 := by
        rw [hp]
        simp
      rw [if_pos (hp ▸ hfull)]
      dsimp only
      constructor
      · intro t ht
        simp only [List.cons_append, List.mem_cons, List.mem_append,
          List.mem_singleton, List.not_mem_nil, or_false] at ht
        rcases ht with rfl | h3 | rfl
        · omega
        · have h4 : t ∈ pruneWindow now ts := by
            rw [hp]
            exact List.mem_cons_of_mem _ h3
          have := hbp t h4
          omega
        · omega
      · have hpredold : ¬ ((fun t => decide
            (now + (60 - (now - oldest)) - t < 60)) oldest = true) := by
          simp only [decide_eq_true_eq]
          omega
        have e2 : List.countP
            (fun t => decide (now + (60 - (now - oldest)) - t < 60))
            [now + (60 - (now - oldest))] = 1 := by
          simp
        rw [countWindow, List.cons_append, List.countP_cons_of_neg
            (fun t => decide (now + (60 - (now - oldest)) - t < 60)) _
            hpredold,
          List.countP_append, e2]
        have h3 := List.countP_le_length
          (fun t => decide (now + (60 - (now - oldest)) - t < 60))
          (l := rest)
        omega
  · rw [if_neg hfull]
    dsimp only
    simp only [Nat.add_zero]
    constructor
    · intro t ht
      simp only [List.mem_append, List.mem_singleton] at ht
      rcases ht with h3 | rfl
      · exact hbp t h3
      · exact le_refl _
    · have e1 : List.countP (fun t => decide (now - t < 60))
          (pruneWindow now ts) = (pruneWindow now ts).length := by
        rw [List.countP_eq_length]
        intro t ht
        simpa using List.of_mem_filter ht
      have e2 : List.countP (fun t => decide (now - t < 60)) [now] = 1 := by
        simp
      rw [countWindow, List.countP_append, e1, e2]
      omega

/-- Helper: a valid run of calls from an invariant state ends in an
invariant state, for every key. -/
theorem runFrom_inv (N : Nat) (calls : List (String × Nat)) :
    ∀ (st : String → List Nat) (clock : Nat),
      (∀ k, KeyInv N clock (st k)) →
      RateLimiter.SeqOK N st clock calls →
      ∀ k, KeyInv N (RateLimiter.runFrom N st clock calls).2
        ((RateLimiter.runFrom N st clock calls).1 k) := by
  induction calls with
  | nil =>
    intro st clock hInv _ k
    simpa [RateLimiter.runFrom] using hInv k
  | cons c rest ih =>
    obtain ⟨key, now⟩ := c
    intro st clock hInv hseq k
    simp only [RateLimiter.SeqOK] at hseq
    obtain ⟨hle, hseq2⟩ := hseq
    have hInv2 : ∀ k', KeyInv N
        (now + (RateLimiter.waitKey N (st key) now).slept)
        ((Function.update st key
          (RateLimiter.waitKey N (st key) now).state) k') := by
      intro k'
      by_cases hk : k' = key
      · subst hk
        rw [Function.update_same]
        exact keyInv_step (hInv k') hle
      · rw [Function.update_noteq hk]
        exact keyInv_age (hInv k') (le_trans hle (Nat.le_add_right _ _))
    simpa [RateLimiter.runFrom] using ih _ _ hInv2 hseq2 k

/-- Claim C3: for any ceiling `N` and any sequential run of `wait`
calls, the trailing 60-second window of each key never holds more than
`N` admission timestamps, at the end of the run and at every later
instant; a call finding the pruned window under budget appends `now`
and returns with zero sleep; a call finding it full sleeps exactly
`60 - (now - oldest)` and is admitted then; and a `wait` on one key
leaves every other key's list untouched. -/
theorem rate_limiter_sliding_window (N : Nat)
    (calls : List (String × Nat))
    (hseq : RateLimiter.SeqOK N (fun _ => []) 0 calls) :
    (∀ (key : String) (t : Nat),
      (RateLimiter.runFrom N (fun _ => []) 0 calls).2 ≤ t →
      countWindow t ((RateLimiter.runFrom N (fun _ => []) 0 calls).1 key)
        ≤ N) ∧
    (∀ (ts : List Nat) (now : Nat), (pruneWindow now ts).length < N →
      RateLimiter.waitKey N ts now =
        ⟨pruneWindow now ts ++ [now], 0, some now⟩) ∧
    (∀ (ts : List Nat) (now oldest : Nat) (rest : List Nat),
      pruneWindow now ts = oldest :: rest →
      N ≤ (pruneWindow now ts).length →
      RateLimiter.waitKey N ts now =
        ⟨pruneWindow now ts ++ [now + (60 - (now - oldest))],
         60 - (now - oldest), some (now + (60 - (now - oldest)))⟩) ∧
    (∀ (st : String → List Nat) (key : String) (now : Nat)
      (key' : String), key' ≠ key →
      (RateLimiter.wait N st key now).1 key' = st key') := by
  refine ⟨?_, ?_, ?_, ?_⟩
  · intro key t ht
    have hbase : ∀ k : String, KeyInv N 0 ([] : List Nat) := by
      intro k
      exact ⟨by simp, by simp [countWindow]⟩
    have h := runFrom_inv N calls (fun _ => []) 0 hbase hseq key
    exact le_trans (countWindow_mono h.1 ht) h.2
  · intro ts now hlt
    simp only [RateLimiter.waitKey]
    rw [if_neg (not_le.mpr hlt)]
  · intro ts now oldest rest hp hfull
    simp only [RateLimiter.waitKey]
    rw [hp, if_pos (hp ▸ hfull)]
  · intro st key now key' hk
    simp only [RateLimiter.wait]
    exact Function.update_noteq hk _ _

/-- Witness for C3 at a concrete run: ceiling 1, two back-to-back calls
on key "a" at times 0 and 10 — the second call sleeps 50 and is
admitted at 60, the window never exceeds 1, and key "b" is untouched. -/
theorem rate_limiter_sliding_window_witness :
    countWindow 60 ((RateLimiter.runFrom 1 (fun _ => []) 0
      [("a", 0), ("a", 10)]).1 "a") ≤ 1 ∧
    RateLimiter.waitKey 1 [] 0 = ⟨[0], 0, some 0⟩ ∧
    RateLimiter.waitKey 1 [0] 10 = ⟨[0, 60], 50, some 60⟩ ∧
    (RateLimiter.wait 1 (fun _ => []) "a" 0).1 "b" = [] := by
  have hseq : RateLimiter.SeqOK 1 (fun _ => []) 0 [("a", 0), ("a", 10)] :=
    ⟨Nat.le_refl 0, by decide, trivial⟩
  have h := rate_limiter_sliding_window 1 [("a", 0), ("a", 10)] hseq
  exact ⟨h.1 "a" 60 (by decide), h.2.1 [] 0 (by decide),
    h.2.2.1 [0] 10 0 [] (by decide) (by decide),
    h.2.2.2 (fun _ => []) "a" 0 "b" (by decide)⟩

end Webull
